import Mathlib

/-!
Verification of the transaction-extraction pipeline of `src/main.py`
(`process_and_log_transaction` and the `/api/process_transaction` endpoint).

Text is modelled as `List Char` (Python `str`).  The external collaborators
(the Gemini inference call, `json.loads`, `gspread` row append) are modelled
as explicit parameters of the pipeline; everything after the Gemini call is
a direct transcription of the Python control flow.
-/

/-- Python strings are modelled as lists of characters. -/
abbrev Str := List Char

/-- JSON values, restricted to the atomic values that occur in the records
this pipeline handles (the extraction prompt requests flat string fields). -/
inductive JVal where
  | jstr (s : Str)
  | jnum (n : Int)
  | jbool (b : Bool)
  | jnull
deriving DecidableEq, Repr

/-- A Python dict produced by `json.loads`, as an association list with
unique keys in insertion order. -/
abbrev Obj := List (Str × JVal)

/-- Python dict lookup `d[k]` / `d.get(k)` returning `none` when absent. -/
def dictGet? : Obj → Str → Option JVal
  | [], _ => none
  | (k, v) :: d, key => if k = key then some v else dictGet? d key

/-- Python `d.get(k, default)` (line 110-114 of `src/main.py` uses
default `""`). -/
def dictGetD (d : Obj) (k : Str) (default : JVal) : JVal :=
  (dictGet? d k).getD default

/-- Python dict assignment `d[k] = v`: replaces the value at an existing key
in place, otherwise appends the new binding at the end. -/
def dictSet : Obj → Str → JVal → Obj
  | [], key, val => [(key, val)]
  | (k, v) :: d, key, val =>
      if k = key then (key, val) :: d else (k, v) :: dictSet d key val

/-- Python `str.find(c)` (line 97): index of the first occurrence, `none`
standing for Python's `-1` sentinel. -/
def pyFind? : Str → Char → Option Nat
  | [], _ => none
  | a :: s, c => if a = c then some 0 else (pyFind? s c).map (· + 1)

/-- Python `str.rfind(c)` (line 98): index of the last occurrence, `none`
standing for Python's `-1` sentinel. -/
def pyRfind? : Str → Char → Option Nat
  | [], _ => none
  | a :: s, c =>
      match pyRfind? s c with
      | some j => some (j + 1)
      | none => if a = c then some 0 else none

/-- Python slice `s[i : j+1]` as used at line 101 of `src/main.py`. -/
def pySlice (s : Str) (i j : Nat) : Str :=
  (s.drop i).take (j + 1 - i)

/-- The whitespace characters removed by Python `str.strip()` (the ASCII
subset, which covers the model responses at issue). -/
def pyIsSpace (c : Char) : Bool :=
  c = ' ' || c = '\t' || c = '\n' || c = '\r' || c = '\x0b' || c = '\x0c'

/-- Python `str.strip()` (line 95): remove leading and trailing whitespace. -/
def pyStrip (t : Str) : Str :=
  ((t.dropWhile pyIsSpace).reverse.dropWhile pyIsSpace).reverse

/-- Lines 97-101 of `src/main.py` applied to an arbitrary string: the span
from the first `{` to the last `}` (inclusive) when both exist and the first
`{` precedes the last `}`, otherwise `none`. -/
def spanOf (s : Str) : Option Str :=
  match pyFind? s '{', pyRfind? s '}' with
  | some i, some j => if i < j then some (pySlice s i j) else none
  | _, _ => none

/-- The JSON candidate substring the pipeline submits to `json.loads`:
lines 95-101 of `src/main.py` (strip, then first-`{`-to-last-`}` span). -/
def jsonCandidate (t : Str) : Option Str :=
  spanOf (pyStrip t)

/-- The canonical field keys of the record. -/
def amountKey : Str := "Amount".data

def dateKey : Str := "Date".data

def platformKey : Str := "Platform".data

def itemsKey : Str := "Items".data

def vendorKey : Str := "Vendor".data

def noteKey : Str := "Note".data

/-- Line 104 of `src/main.py`: `structured_analysis['Note'] = user_note`. -/
def normalizeRecord (structured : Obj) (user_note : Str) : Obj :=
  dictSet structured noteKey (JVal.jstr user_note)

/-- The first six values of the appended row (lines 110-115 of
`src/main.py`): the five canonical fields looked up with default `""`
followed by the caller-supplied note. -/
def recordFields (s : Obj) (user_note : Str) : List JVal :=
  [dictGetD s amountKey (JVal.jstr []),
   dictGetD s dateKey (JVal.jstr []),
   dictGetD s platformKey (JVal.jstr []),
   dictGetD s itemsKey (JVal.jstr []),
   dictGetD s vendorKey (JVal.jstr []),
   JVal.jstr user_note]

/-- The row passed to `sheet.append_row` (lines 109-117 of `src/main.py`):
the six record fields followed by the verbatim raw model output. -/
def ledgerRow (s : Obj) (user_note raw_text : Str) : List JVal :=
  recordFields s user_note ++ [JVal.jstr raw_text]

/-- The error dict returned on failure: key `error` always present,
`details` and `raw_response` only on some paths (modelled as options). -/
structure ErrDict where
  error : Str
  details : Option Str
  raw_response : Option Str
deriving DecidableEq, Repr

/-- The first component of the pair returned by
`process_and_log_transaction`; `ok` is paired with Python `True`,
`err` with Python `False`. -/
inductive PipeOut where
  | ok (record : Obj)
  | err (payload : ErrDict)
deriving DecidableEq, Repr

/-- The boolean second component of the Python return value. -/
def PipeOut.success : PipeOut → Bool
  | .ok _ => true
  | .err _ => false

/-- Observable external effects of one pipeline invocation: whether the
Gemini call was made, the rows passed to `sheet.append_row`, and the rows
actually persisted (an append that raises persists nothing). -/
structure Trace where
  geminiCalled : Bool
  appendAttempts : List (List JVal)
  appendedRows : List (List JVal)
deriving DecidableEq, Repr

/-- The external collaborators of one pipeline invocation:
`geminiInit`/`sheetInit` model `GeminiClient`/`sheet` being non-`None`;
`geminiResult` is the outcome of the single `generate_content` call
(`.error e` = the call raised with message `e`, `.ok t` = it returned
`response.text = t`); `loads` models `json.loads` (`.error e` = it raised
`json.JSONDecodeError` with message `e`); `appendResult` models
`sheet.append_row` on a given row (`some e` = it raised with message `e`). -/
structure Deps where
  geminiInit : Bool
  sheetInit : Bool
  geminiResult : Except Str Str
  loads : Str → Except Str Obj
  appendResult : List JVal → Option Str

/-- The pipeline `process_and_log_transaction` of `src/main.py`
(lines 55-131), returning
the Python result together with the trace of external effects.  An append
exception propagates to the outer `except Exception` handler (line 129),
which is why it yields the `"Gemini API request failed"` payload. -/
def process_and_log_transaction (d : Deps) (user_note : Str) :
    PipeOut × Trace :=
  if d.geminiInit = false then
    (.err ⟨"Gemini client not initialized".data, none, none⟩, ⟨false, [], []⟩)
  else if d.sheetInit = false then
    (.err ⟨"Google Sheets client not initialized".data, none, none⟩,
     ⟨false, [], []⟩)
  else
    match d.geminiResult with
    | .error e =>
        (.err ⟨"Gemini API request failed".data, some e, none⟩,
         ⟨true, [], []⟩)
    | .ok text =>
        match jsonCandidate text with
        | none =>
            (.err ⟨"Could not find JSON in Gemini response".data, none,
                   some text⟩,
             ⟨true, [], []⟩)
        | some json_str =>
            match d.loads json_str with
            | .error e =>
                (.err ⟨"Failed to parse Gemini JSON response".data, some e,
                       some text⟩,
                 ⟨true, [], []⟩)
            | .ok structured =>
                let s := normalizeRecord structured user_note
                let row := ledgerRow s user_note text
                match d.appendResult row with
                | none => (.ok s, ⟨true, [row], [row]⟩)
                | some e =>
                    (.err ⟨"Gemini API request failed".data, some e, none⟩,
                     ⟨true, [row], []⟩)

/-- The JSON body of an HTTP response of the upload endpoint. -/
inductive ApiBody where
  | errorOnly (error : Str)
  | errorDetailsText (error : Str) (details : Str)
  | errorDetailsPayload (error : Str) (details : ErrDict)
  | success (message : Str) (data : Obj)
deriving DecidableEq, Repr

/-- The relevant content of the multipart HTTP request:
`imageProvided` = `'image' in request.files`, `noteProvided` =
`'note' in request.form`, `filename` = `image_file.filename`,
`note` = `request.form['note']`, and `readResult` the outcome of
`image_file.read()` (`.error e` = it raised with message `e`). -/
structure ApiRequest where
  imageProvided : Bool
  noteProvided : Bool
  filename : Str
  note : Str
  readResult : Except Str (List Nat)

/-- The endpoint `api_process_transaction` of `src/main.py`
(lines 169-195): the JSON
body and the HTTP status code. -/
def api_process_transaction (req : ApiRequest) (d : Deps) : ApiBody × Nat :=
  if req.imageProvided = false then
    (.errorOnly "No image file provided".data, 400)
  else if req.noteProvided = false then
    (.errorOnly "No note provided".data, 400)
  else if req.filename = [] then
    (.errorOnly "No selected file".data, 400)
  else
    match req.readResult with
    | .error e => (.errorDetailsText "Could not read image file".data e, 400)
    | .ok _ =>
        match (process_and_log_transaction d req.note).1 with
        | .ok record =>
            (.success "Transaction processed successfully".data record, 200)
        | .err payload =>
            (.errorDetailsPayload "Failed to process transaction".data
              payload, 500)

/-- The whitespace characters of the JSON grammar. -/
def jsonWsChar (c : Char) : Bool :=
  c = ' ' || c = '\t' || c = '\n' || c = '\r'

/-- Skip JSON whitespace. -/
def skipJsonWs (s : Str) : Str := s.dropWhile jsonWsChar

/-- Body of a JSON string literal after the opening quote: the content up to
the closing quote and the remaining input.  Escapes are outside the modelled
fragment (none occur in the texts at issue). -/
def strBody : Str → Option (Str × Str)
  | [] => none
  | c :: rest =>
      if c = '"' then some ([], rest)
      else if c = '\\' then none
      else (strBody rest).map (fun p => (c :: p.1, p.2))

/-- A JSON string literal: an opening quote followed by a body. -/
def parseStringLit : Str → Option (Str × Str)
  | [] => none
  | c :: rest => if c = '"' then strBody rest else none

/-- A JSON value of the modelled fragment (string literals, as the
extraction prompt requests string-valued fields). -/
def parseValue (s : Str) : Option (JVal × Str) :=
  (parseStringLit s).map (fun p => (JVal.jstr p.1, p.2))

/-- The members of a JSON object after the opening `{`, accumulating into a
dict with `dictSet` (so duplicate keys resolve last-wins, as in Python). -/
def parseMembers : Nat → Str → Obj → Option (Obj × Str)
  | 0, _, _ => none
  | fuel + 1, s, acc =>
      match parseStringLit (skipJsonWs s) with
      | none => none
      | some (key, s1) =>
          match skipJsonWs s1 with
          | ':' :: s2 =>
              match parseValue (skipJsonWs s2) with
              | none => none
              | some (v, s3) =>
                  match skipJsonWs s3 with
                  | ',' :: s4 => parseMembers fuel s4 (dictSet acc key v)
                  | '}' :: s5 => some (dictSet acc key v, s5)
                  | _ => none
          | _ => none

/-- Modelled from the spec and the Python standard library: strict JSON
decoding (`json.loads`) restricted to the flat string-valued objects the
extraction prompt requests.  Fails (as `json.JSONDecodeError` does) when the
input is not a single such object with nothing but whitespace around it. -/
def jsonLoads (s : Str) : Except Str Obj :=
  match skipJsonWs s with
  | '{' :: r =>
      match skipJsonWs r with
      | '}' :: r2 =>
          if skipJsonWs r2 = [] then .ok [] else .error "Extra data".data
      | _ =>
          match parseMembers (r.length + 1) r [] with
          | some (obj, rest) =>
              if skipJsonWs rest = [] then .ok obj
              else .error "Extra data".data
          | none => .error "Expecting value".data
  | _ => .error "Expecting value".data

theorem pyFind?_eq_none {s : Str} {c : Char} :
    pyFind? s c = none ↔ c ∉ s := by
  induction s with
  | nil => simp [pyFind?]
  | cons a s ih =>
    by_cases h : a = c
    · subst h
      simp [pyFind?]
    · simp [pyFind?, h, Option.map_eq_none', ih, Ne.symm h]

theorem pyRfind?_eq_none {s : Str} {c : Char} :
    pyRfind? s c = none ↔ c ∉ s := by
  induction s with
  | nil => simp [pyRfind?]
  | cons a s ih =>
    unfold pyRfind?
    cases hr : pyRfind? s c with
    | some j =>
      rw [hr] at ih
      have hc : c ∈ s := by
        by_contra hmem
        exact absurd (ih.mpr hmem) (by simp)
      simp [hc]
    | none =>
      rw [hr] at ih
      by_cases h : a = c
      · subst h
        simp
      · simp [h, ih.mp rfl, Ne.symm h]

theorem pyFind?_append_of_left_none {c : Char} {l : Str} (r : Str)
    (h : c ∉ l) : pyFind? (l ++ r) c = (pyFind? r c).map (l.length + ·) := by
  induction l with
  | nil =>
    simp only [List.nil_append, List.length_nil]
    cases pyFind? r c <;> simp
  | cons a l ih =>
    have ha : ¬ a = c := fun hac => h (by simp [hac])
    have h' : c ∉ l := fun hm => h (by simp [hm])
    cases hr : pyFind? r c with
    | none =>
      simp only [List.cons_append, pyFind?, List.append_eq, ha, if_false,
        ih h', hr, Option.map_none']
    | some j =>
      simp only [List.cons_append, pyFind?, List.append_eq, ha, if_false,
        ih h', hr, Option.map_some', List.length_cons, Option.some.injEq]
      omega

theorem pyFind?_append_of_right_none {c : Char} {r : Str} (l : Str)
    (h : c ∉ r) : pyFind? (l ++ r) c = pyFind? l c := by
  induction l with
  | nil =>
    simp only [List.nil_append]
    rw [pyFind?_eq_none.mpr h]
    rfl
  | cons a l ih =>
    by_cases ha : a = c
    · simp [pyFind?, ha]
    · simp only [List.cons_append, pyFind?, List.append_eq, ha, if_false, ih]

theorem pyRfind?_cons (a : Char) (s : Str) (c : Char) :
    pyRfind? (a :: s) c =
      match pyRfind? s c with
      | some j => some (j + 1)
      | none => if a = c then some 0 else none := rfl

theorem pyRfind?_append_of_right_some {c : Char} {r : Str} {j : Nat}
    (l : Str) (h : pyRfind? r c = some j) :
    pyRfind? (l ++ r) c = some (l.length + j) := by
  induction l with
  | nil => simpa using h
  | cons a l ih =>
    rw [List.cons_append, pyRfind?_cons, ih]
    show some (l.length + j + 1) = some ((a :: l).length + j)
    simp only [List.length_cons]
    exact congrArg some (by omega)

theorem pyRfind?_append_of_right_none {c : Char} {r : Str} (l : Str)
    (h : c ∉ r) : pyRfind? (l ++ r) c = pyRfind? l c := by
  have hr : pyRfind? r c = none := pyRfind?_eq_none.mpr h
  induction l with
  | nil => simpa using hr
  | cons a l ih =>
    rw [List.cons_append, pyRfind?_cons, ih, pyRfind?_cons]

theorem pyRfind?_cons_self_of_none {c : Char} {s : Str} (h : c ∉ s) :
    pyRfind? (c :: s) c = some 0 := by
  simp [pyRfind?, pyRfind?_eq_none.mpr h]

theorem pyFind?_lt_length {s : Str} {c : Char} {i : Nat}
    (h : pyFind? s c = some i) : i < s.length := by
  induction s generalizing i with
  | nil => simp [pyFind?] at h
  | cons a s ih =>
    by_cases ha : a = c
    · simp [pyFind?, ha] at h
      simp only [List.length_cons]
      omega
    · simp only [pyFind?, ha, if_false] at h
      cases hl : pyFind? s c with
      | none => rw [hl] at h; simp at h
      | some i0 =>
        rw [hl] at h
        simp only [Option.map_some', Option.some.injEq] at h
        have := ih hl
        simp only [List.length_cons]
        omega

theorem pyRfind?_lt_length {s : Str} {c : Char} {j : Nat}
    (h : pyRfind? s c = some j) : j < s.length := by
  induction s generalizing j with
  | nil => simp [pyRfind?] at h
  | cons a s ih =>
    rw [pyRfind?_cons] at h
    cases hr : pyRfind? s c with
    | some j0 =>
      rw [hr] at h
      have := ih hr
      simp only [Option.some.injEq] at h
      simp only [List.length_cons]
      omega
    | none =>
      rw [hr] at h
      by_cases ha : a = c
      · simp only [ha, if_true, Option.some.injEq] at h
        simp only [List.length_cons]
        omega
      · simp [ha] at h

theorem spanOf_ws_append {w s : Str}
    (hw : ∀ c ∈ w, pyIsSpace c = true) : spanOf (w ++ s) = spanOf s := by
  have hwo : '{' ∉ w := fun hm => absurd (hw _ hm) (by decide)
  have hwc : '}' ∉ w := fun hm => absurd (hw _ hm) (by decide)
  unfold spanOf
  rw [pyFind?_append_of_left_none s hwo]
  cases hf : pyFind? s '{' with
  | none => rfl
  | some i =>
    cases hrf : pyRfind? s '}' with
    | none =>
      rw [pyRfind?_append_of_right_none w (pyRfind?_eq_none.mp hrf),
        pyRfind?_eq_none.mpr hwc]
      simp only [Option.map_some']
    | some j =>
      rw [pyRfind?_append_of_right_some w hrf]
      simp only [Option.map_some']
      show (if w.length + i < w.length + j then
          some (pySlice (w ++ s) (w.length + i) (w.length + j)) else none) =
        (if i < j then some (pySlice s i j) else none)
      by_cases hij : i < j
      · rw [if_pos (by omega), if_pos hij]
        unfold pySlice
        rw [List.drop_append]
        have harith : w.length + j + 1 - (w.length + i) = j + 1 - i := by
          omega
        rw [harith]
      · rw [if_neg (by omega), if_neg hij]

theorem spanOf_append_ws {w s : Str}
    (hw : ∀ c ∈ w, pyIsSpace c = true) : spanOf (s ++ w) = spanOf s := by
  have hwo : '{' ∉ w := fun hm => absurd (hw _ hm) (by decide)
  have hwc : '}' ∉ w := fun hm => absurd (hw _ hm) (by decide)
  unfold spanOf
  rw [pyFind?_append_of_right_none s hwo,
    pyRfind?_append_of_right_none s hwc]
  cases hf : pyFind? s '{' with
  | none => rfl
  | some i =>
    cases hrf : pyRfind? s '}' with
    | none => rfl
    | some j =>
      show (if i < j then some (pySlice (s ++ w) i j) else none) =
        (if i < j then some (pySlice s i j) else none)
      by_cases hij : i < j
      · rw [if_pos hij, if_pos hij]
        unfold pySlice
        have hi : i ≤ s.length := le_of_lt (pyFind?_lt_length hf)
        have hj : j < s.length := pyRfind?_lt_length hrf
        rw [List.drop_append_of_le_length hi,
          List.take_append_of_le_length (by simp [List.length_drop]; omega)]
      · rw [if_neg hij, if_neg hij]

theorem spanOf_pyStrip (t : Str) : spanOf (pyStrip t) = spanOf t := by
  have h1 : spanOf (t.dropWhile pyIsSpace) = spanOf t := by
    conv_rhs => rw [← List.takeWhile_append_dropWhile (p := pyIsSpace) (l := t)]
    exact (spanOf_ws_append (fun c hc => List.mem_takeWhile_imp hc)).symm
  have h2 : spanOf (pyStrip t) = spanOf (t.dropWhile pyIsSpace) := by
    set u := t.dropWhile pyIsSpace with hu
    have hdec : u = pyStrip t ++ ((u.reverse.takeWhile pyIsSpace).reverse) := by
      unfold pyStrip
      rw [← hu]
      conv_lhs => rw [← List.reverse_reverse u,
        ← List.takeWhile_append_dropWhile (p := pyIsSpace) (l := u.reverse)]
      rw [List.reverse_append]
    conv_rhs => rw [hdec]
    exact (spanOf_append_ws (fun c hc =>
      List.mem_takeWhile_imp (List.mem_reverse.mp hc))).symm
  rw [h2, h1]

theorem jsonCandidate_eq_spanOf (t : Str) : jsonCandidate t = spanOf t :=
  spanOf_pyStrip t

theorem dictGet?_dictSet_self (d : Obj) (k : Str) (v : JVal) :
    dictGet? (dictSet d k v) k = some v := by
  induction d with
  | nil => simp [dictSet, dictGet?]
  | cons p d ih =>
    rcases p with ⟨k0, v0⟩
    by_cases h : k0 = k
    · simp [dictSet, h, dictGet?]
    · simp [dictSet, h, dictGet?, ih]

theorem dictGet?_dictSet_ne (d : Obj) {k k' : Str} (v : JVal)
    (h : k' ≠ k) : dictGet? (dictSet d k v) k' = dictGet? d k' := by
  induction d with
  | nil => simp [dictSet, dictGet?, Ne.symm h]
  | cons p d ih =>
    rcases p with ⟨k0, v0⟩
    by_cases h0 : k0 = k
    · subst h0
      simp [dictSet, dictGet?, Ne.symm h]
    · simp only [dictSet, h0, if_false, dictGet?, ih]

theorem spanOf_shape {p s : Str} (a m b : Str)
    (hp : '{' ∉ p) (hs : '}' ∉ s) :
    spanOf (p ++ '{' :: (a ++ '}' :: (m ++ '{' :: (b ++ '}' :: s)))) =
      some ('{' :: (a ++ '}' :: (m ++ '{' :: (b ++ ['}'])))) := by
  set core : Str := '{' :: (a ++ '}' :: (m ++ '{' :: (b ++ ['}']))) with hcore
  set t : Str := p ++ '{' :: (a ++ '}' :: (m ++ '{' :: (b ++ '}' :: s)))
    with ht
  set L : Str := p ++ '{' :: (a ++ '}' :: (m ++ '{' :: b)) with hL
  have ht1 : t = p ++ (core ++ s) := by
    simp [ht, hcore, List.append_assoc]
  have ht2 : t = L ++ ('}' :: s) := by
    simp [ht, hL, List.append_assoc]
  have hfind : pyFind? t '{' = some p.length := by
    rw [ht1, pyFind?_append_of_left_none _ hp]
    simp [hcore, pyFind?]
  have hrfind : pyRfind? t '}' = some L.length := by
    rw [ht2, pyRfind?_append_of_right_some L (pyRfind?_cons_self_of_none hs)]
    simp
  have hlenL : L.length =
      p.length + 1 + a.length + 1 + m.length + 1 + b.length := by
    simp [hL, List.length_append, List.length_cons]
    omega
  have hlen : p.length < L.length := by omega
  have hslice : pySlice t p.length L.length = core := by
    unfold pySlice
    rw [ht1, List.drop_left]
    have hlc : core.length = L.length + 1 - p.length := by
      simp [hcore, List.length_append, List.length_cons]
      omega
    exact List.take_left' hlc
  unfold spanOf
  rw [hfind, hrfind]
  show (if p.length < L.length then some (pySlice t p.length L.length)
    else none) = some core
  rw [if_pos hlen, hslice]

theorem process_eq_config_gemini (d : Deps) (n : Str)
    (h : d.geminiInit = false) :
    process_and_log_transaction d n =
      (.err ⟨"Gemini client not initialized".data, none, none⟩,
       ⟨false, [], []⟩) := by
  simp only [process_and_log_transaction, h]
  simp

theorem process_eq_config_sheet (d : Deps) (n : Str)
    (hg : d.geminiInit = true) (h : d.sheetInit = false) :
    process_and_log_transaction d n =
      (.err ⟨"Google Sheets client not initialized".data, none, none⟩,
       ⟨false, [], []⟩) := by
  simp only [process_and_log_transaction, hg, h]
  simp

theorem process_eq_gemini_exn (d : Deps) (n : Str) {e : Str}
    (hg : d.geminiInit = true) (hs : d.sheetInit = true)
    (he : d.geminiResult = .error e) :
    process_and_log_transaction d n =
      (.err ⟨"Gemini API request failed".data, some e, none⟩,
       ⟨true, [], []⟩) := by
  simp only [process_and_log_transaction, hg, hs, he]
  simp

theorem process_eq_nojson (d : Deps) (n : Str) {t : Str}
    (hg : d.geminiInit = true) (hs : d.sheetInit = true)
    (ht : d.geminiResult = .ok t) (hc : jsonCandidate t = none) :
    process_and_log_transaction d n =
      (.err ⟨"Could not find JSON in Gemini response".data, none, some t⟩,
       ⟨true, [], []⟩) := by
  simp only [process_and_log_transaction, hg, hs, ht, hc]
  simp

theorem process_eq_badjson (d : Deps) (n : Str) {t c e : Str}
    (hg : d.geminiInit = true) (hs : d.sheetInit = true)
    (ht : d.geminiResult = .ok t) (hc : jsonCandidate t = some c)
    (hl : d.loads c = .error e) :
    process_and_log_transaction d n =
      (.err ⟨"Failed to parse Gemini JSON response".data, some e, some t⟩,
       ⟨true, [], []⟩) := by
  simp only [process_and_log_transaction, hg, hs, ht, hc, hl]
  simp

theorem process_eq_append_ok (d : Deps) (n : Str) {t c : Str} {obj : Obj}
    (hg : d.geminiInit = true) (hs : d.sheetInit = true)
    (ht : d.geminiResult = .ok t) (hc : jsonCandidate t = some c)
    (hl : d.loads c = .ok obj)
    (ha : d.appendResult (ledgerRow (normalizeRecord obj n) n t) = none) :
    process_and_log_transaction d n =
      (.ok (normalizeRecord obj n),
       ⟨true, [ledgerRow (normalizeRecord obj n) n t],
        [ledgerRow (normalizeRecord obj n) n t]⟩) := by
  simp only [process_and_log_transaction, hg, hs, ht, hc, hl, ha]
  simp

theorem process_eq_append_exn (d : Deps) (n : Str) {t c e : Str} {obj : Obj}
    (hg : d.geminiInit = true) (hs : d.sheetInit = true)
    (ht : d.geminiResult = .ok t) (hc : jsonCandidate t = some c)
    (hl : d.loads c = .ok obj)
    (ha : d.appendResult (ledgerRow (normalizeRecord obj n) n t) = some e) :
    process_and_log_transaction d n =
      (.err ⟨"Gemini API request failed".data, some e, none⟩,
       ⟨true, [ledgerRow (normalizeRecord obj n) n t], []⟩) := by
  simp only [process_and_log_transaction, hg, hs, ht, hc, hl, ha]
  simp

/-- Every invocation either fails with an error payload and appends nothing,
or succeeds along the full chain with exactly one appended row. -/
theorem process_inv (d : Deps) (n : Str) :
    (∃ p, (process_and_log_transaction d n).1 = .err p ∧
       (process_and_log_transaction d n).2.appendedRows = []) ∨
    (∃ t c obj, d.geminiResult = .ok t ∧ jsonCandidate t = some c ∧
       d.loads c = .ok obj ∧
       d.appendResult (ledgerRow (normalizeRecord obj n) n t) = none ∧
       process_and_log_transaction d n =
         (.ok (normalizeRecord obj n),
          ⟨true, [ledgerRow (normalizeRecord obj n) n t],
           [ledgerRow (normalizeRecord obj n) n t]⟩)) := by
  cases hg : d.geminiInit with
  | false =>
    rw [process_eq_config_gemini d n hg]
    exact Or.inl ⟨_, rfl, rfl⟩
  | true =>
    cases hs : d.sheetInit with
    | false =>
      rw [process_eq_config_sheet d n hg hs]
      exact Or.inl ⟨_, rfl, rfl⟩
    | true =>
      cases ht : d.geminiResult with
      | error e =>
        rw [process_eq_gemini_exn d n hg hs ht]
        exact Or.inl ⟨_, rfl, rfl⟩
      | ok t =>
        cases hc : jsonCandidate t with
        | none =>
          rw [process_eq_nojson d n hg hs ht hc]
          exact Or.inl ⟨_, rfl, rfl⟩
        | some c =>
          cases hl : d.loads c with
          | error e =>
            rw [process_eq_badjson d n hg hs ht hc hl]
            exact Or.inl ⟨_, rfl, rfl⟩
          | ok obj =>
            cases ha : d.appendResult (ledgerRow (normalizeRecord obj n) n t)
              with
            | none =>
              rw [process_eq_append_ok d n hg hs ht hc hl ha]
              exact Or.inr ⟨t, c, obj, rfl, hc, hl, ha, rfl⟩
            | some e =>
              rw [process_eq_append_exn d n hg hs ht hc hl ha]
              exact Or.inl ⟨_, rfl, rfl⟩

/-- The raw model text of end-to-end scenario 1 of the spec. -/
def scenarioText : Str :=
  ("```json \x7b\"Amount\":\"250\",\"Date\":\"2024-01-05\",\"Platform\":\"UPI\"\x7d ```").data

/-- Collaborators for scenario 1: clients initialized, the Gemini call
returns `scenarioText`, decoding by `jsonLoads`, append succeeds. -/
def scenarioDeps : Deps :=
  ⟨true, true, .ok scenarioText, jsonLoads, fun _ => none⟩

/-- A minimal raw model text that is exactly one JSON object. -/
def simpleText : Str := ("\x7b\"Amount\":\"10\"\x7d").data

/-- Collaborators where everything succeeds except the ledger append, which
raises with message `boom`. -/
def appendFailDeps : Deps :=
  ⟨true, true, .ok simpleText, jsonLoads, fun _ => some ("boom").data⟩

/-- Collaborators where the Gemini call itself raises with message `boom`. -/
def geminiFailDeps : Deps :=
  ⟨true, true, .error ("boom").data, jsonLoads, fun _ => none⟩

/-- A raw model text whose JSON object carries its own `Note` key. -/
def noteText : Str := ("\x7b\"Amount\":\"10\",\"Note\":\"other\"\x7d").data

/-- Collaborators for a successful run on `noteText`. -/
def noteDeps : Deps := ⟨true, true, .ok noteText, jsonLoads, fun _ => none⟩

/-- A raw model text whose JSON object carries an extra non-canonical key. -/
def extraText : Str := ("\x7b\"Amount\":\"10\",\"Extra\":\"z\"\x7d").data

/-- Collaborators for a successful run on `extraText`. -/
def extraDeps : Deps := ⟨true, true, .ok extraText, jsonLoads, fun _ => none⟩

/-- A raw model text that contains no braces at all. -/
def proseText : Str := ("I could not read the receipt, sorry.").data

/-- Collaborators where the Gemini call returns brace-free prose. -/
def proseDeps : Deps := ⟨true, true, .ok proseText, jsonLoads, fun _ => none⟩

/-- Collaborators with the Gemini client left uninitialized. -/
def unconfDeps : Deps := ⟨false, true, .ok [], jsonLoads, fun _ => none⟩

/-- C1: for every raw model text the pipeline's JSON candidate is the span
from the first `{` to the last `}` of the text (inclusive); the pipeline's
result depends on the JSON decoder only through its value at exactly that
candidate substring; and on text of shape `prefix {a} middle {b} suffix`
the captured span is `{a} middle {b}`, never a narrower single-object
match. -/
theorem claim1_outermost_span :
    (∀ t : Str, jsonCandidate t = spanOf t) ∧
    (∀ (gi si : Bool) (ar : List JVal → Option Str)
       (loads1 loads2 : Str → Except Str Obj) (t n : Str),
       (∀ c, jsonCandidate t = some c → loads1 c = loads2 c) →
       process_and_log_transaction ⟨gi, si, .ok t, loads1, ar⟩ n =
         process_and_log_transaction ⟨gi, si, .ok t, loads2, ar⟩ n) ∧
    (∀ p a m b s : Str, '{' ∉ p → '}' ∉ s →
       jsonCandidate
           (p ++ '{' :: (a ++ '}' :: (m ++ '{' :: (b ++ '}' :: s)))) =
         some ('{' :: (a ++ '}' :: (m ++ '{' :: (b ++ ['}']))))) := by
  refine ⟨fun t => spanOf_pyStrip t, ?_, ?_⟩
  · intro gi si ar loads1 loads2 t n h
    cases gi with
    | false =>
      rw [process_eq_config_gemini _ n rfl, process_eq_config_gemini _ n rfl]
    | true =>
      cases si with
      | false =>
        rw [process_eq_config_sheet _ n rfl rfl,
          process_eq_config_sheet _ n rfl rfl]
      | true =>
        cases hc : jsonCandidate t with
        | none =>
          rw [process_eq_nojson _ n rfl rfl rfl hc,
            process_eq_nojson _ n rfl rfl rfl hc]
        | some c =>
          have hcc : loads1 c = loads2 c := h c hc
          cases hl : loads1 c with
          | error e =>
            rw [process_eq_badjson _ n rfl rfl rfl hc hl,
              process_eq_badjson _ n rfl rfl rfl hc (hcc ▸ hl)]
          | ok obj =>
            have hl2 : loads2 c = .ok obj := hcc ▸ hl
            cases ha : ar (ledgerRow (normalizeRecord obj n) n t) with
            | none =>
              rw [process_eq_append_ok _ n rfl rfl rfl hc hl ha,
                process_eq_append_ok _ n rfl rfl rfl hc hl2 ha]
            | some e =>
              rw [process_eq_append_exn _ n rfl rfl rfl hc hl ha,
                process_eq_append_exn _ n rfl rfl rfl hc hl2 ha]
  · intro p a m b s hp hs
    rw [jsonCandidate_eq_spanOf]
    exact spanOf_shape a m b hp hs

/-- Witness for C1: on `x {a} m {b} y` the captured candidate is
`{a} m {b}`. -/
theorem claim1_outermost_span_witness :
    jsonCandidate (("x ").data ++ '{' :: (("a").data ++ '}' ::
        ((" m ").data ++ '{' :: (("b").data ++ '}' :: (" y").data)))) =
      some ('{' :: (("a").data ++ '}' ::
        ((" m ").data ++ '{' :: (("b").data ++ ['}'])))) :=
  claim1_outermost_span.2.2 ("x ").data ("a").data (" m ").data ("b").data
    (" y").data (by decide) (by decide)

/-- Counterexample for C2: when the append raises after a fully successful
extraction/parse/normalize, the failure payload's kind is the generic
`Gemini API request failed` (the outer exception handler's message), and the
returned result is identical to the one produced when the Gemini call itself
raises with the same message — the kinds are not distinct. -/
theorem claim2_counterexample :
    (process_and_log_transaction appendFailDeps ("n").data).1 =
      .err ⟨("Gemini API request failed").data, some ("boom").data, none⟩ ∧
    (process_and_log_transaction appendFailDeps ("n").data).1 =
      (process_and_log_transaction geminiFailDeps ("n").data).1 := by
  constructor
  · decide
  · decide

/-- C2 (amended): if the ledger append raises after extraction, parsing and
normalization all succeeded, the pipeline returns a failure payload whose
kind is the generic `Gemini API request failed` message of the outer
exception handler (the same kind used for extraction-call failures, not a
distinct `AppendFailed` kind), with the computed row attempted exactly once,
persisted nowhere, and not retried. -/
theorem claim2_append_failure :
    ∀ (d : Deps) (n t c e : Str) (obj : Obj),
      d.geminiInit = true → d.sheetInit = true → d.geminiResult = .ok t →
      jsonCandidate t = some c → d.loads c = .ok obj →
      d.appendResult (ledgerRow (normalizeRecord obj n) n t) = some e →
      (process_and_log_transaction d n).1 =
        .err ⟨("Gemini API request failed").data, some e, none⟩ ∧
      (process_and_log_transaction d n).2.appendedRows = [] ∧
      (process_and_log_transaction d n).2.appendAttempts =
        [ledgerRow (normalizeRecord obj n) n t] := by
  intro d n t c e obj hg hs ht hc hl ha
  rw [process_eq_append_exn d n hg hs ht hc hl ha]
  exact ⟨rfl, rfl, rfl⟩

/-- Witness for C2 (amended), at the concrete failing-append run. -/
theorem claim2_append_failure_witness :
    (process_and_log_transaction appendFailDeps ("n").data).1 =
      .err ⟨("Gemini API request failed").data, some ("boom").data, none⟩ ∧
    (process_and_log_transaction appendFailDeps ("n").data).2.appendedRows =
      [] ∧
    (process_and_log_transaction appendFailDeps ("n").data).2.appendAttempts
      = [ledgerRow
          (normalizeRecord [(amountKey, JVal.jstr ("10").data)] ("n").data)
          ("n").data simpleText] :=
  claim2_append_failure appendFailDeps ("n").data simpleText simpleText
    ("boom").data [(amountKey, JVal.jstr ("10").data)]
    rfl rfl rfl (by decide) rfl rfl

/-- C3: normalization defaults — when the parsed object binds `Amount` and
carries none of the other canonical keys, the produced record fields are the
amount, empty strings for date/platform/items/vendor, and the caller note;
normalization is total and never fails on missing optional fields. -/
theorem claim3_defaults :
    ∀ (obj : Obj) (n a : Str),
      dictGet? obj amountKey = some (JVal.jstr a) →
      dictGet? obj dateKey = none →
      dictGet? obj platformKey = none →
      dictGet? obj itemsKey = none →
      dictGet? obj vendorKey = none →
      recordFields (normalizeRecord obj n) n =
        [JVal.jstr a, JVal.jstr [], JVal.jstr [], JVal.jstr [],
         JVal.jstr [], JVal.jstr n] := by
  intro obj n a hA hD hP hI hV
  unfold recordFields normalizeRecord dictGetD
  rw [dictGet?_dictSet_ne obj _ (by decide), hA,
    dictGet?_dictSet_ne obj _ (by decide), hD,
    dictGet?_dictSet_ne obj _ (by decide), hP,
    dictGet?_dictSet_ne obj _ (by decide), hI,
    dictGet?_dictSet_ne obj _ (by decide), hV]
  rfl

/-- Witness for C3: normalizing `{"Amount": "10"}` with note `n`. -/
theorem claim3_defaults_witness :
    recordFields
        (normalizeRecord [(amountKey, JVal.jstr ("10").data)] ("n").data)
        ("n").data =
      [JVal.jstr ("10").data, JVal.jstr [], JVal.jstr [], JVal.jstr [],
       JVal.jstr [], JVal.jstr ("n").data] :=
  claim3_defaults [(amountKey, JVal.jstr ("10").data)] ("n").data
    ("10").data (by decide) (by decide) (by decide) (by decide) (by decide)

/-- C4: a failing invocation persists nothing to the ledger, and the ledger
gains a row only when the whole chain succeeded. -/
theorem claim4_no_partial_writes :
    ∀ (d : Deps) (n : Str),
      ((process_and_log_transaction d n).1.success = false →
        (process_and_log_transaction d n).2.appendedRows = []) ∧
      ((process_and_log_transaction d n).2.appendedRows ≠ [] →
        ∃ r, (process_and_log_transaction d n).1 = .ok r) := by
  intro d n
  rcases process_inv d n with ⟨p, hp, he⟩ | ⟨t, c, obj, ht, hc, hl, ha, heq⟩
  · exact ⟨fun _ => he, fun hne => absurd he hne⟩
  · constructor
    · intro hsucc
      rw [heq] at hsucc
      simp [PipeOut.success] at hsucc
    · intro _
      rw [heq]
      exact ⟨_, rfl⟩

/-- Witness for C4: the unconfigured run appends nothing. -/
theorem claim4_no_partial_writes_witness :
    (process_and_log_transaction unconfDeps ("x").data).2.appendedRows
      = [] :=
  (claim4_no_partial_writes unconfDeps ("x").data).1 (by decide)

/-- C5: when the raw model text has no `{`, or no `}`, or its last `}`
precedes its first `{`, the pipeline returns the `Could not find JSON`
failure carrying the raw text, appending nothing (and, the model being
total, no fault escapes). -/
theorem claim5_nojson :
    ∀ (d : Deps) (n t : Str),
      d.geminiInit = true → d.sheetInit = true → d.geminiResult = .ok t →
      ('{' ∉ t ∨ '}' ∉ t ∨
        (∃ i j, pyFind? t '{' = some i ∧ pyRfind? t '}' = some j ∧ j < i)) →
      process_and_log_transaction d n =
        (.err ⟨("Could not find JSON in Gemini response").data, none,
               some t⟩,
         ⟨true, [], []⟩) := by
  intro d n t hg hs ht hcase
  apply process_eq_nojson d n hg hs ht
  rw [jsonCandidate_eq_spanOf]
  unfold spanOf
  rcases hcase with h | h | ⟨i, j, hi, hj, hji⟩
  · rw [pyFind?_eq_none.mpr h]
  · rw [pyRfind?_eq_none.mpr h]
    cases pyFind? t '{' <;> rfl
  · rw [hi, hj]
    show (if i < j then some (pySlice t i j) else none) = none
    rw [if_neg (by omega)]

/-- Witness for C5: a brace-free prose response yields the no-JSON error. -/
theorem claim5_nojson_witness :
    process_and_log_transaction proseDeps ("n").data =
      (.err ⟨("Could not find JSON in Gemini response").data, none,
             some proseText⟩,
       ⟨true, [], []⟩) :=
  claim5_nojson proseDeps ("n").data proseText rfl rfl rfl
    (Or.inl (by decide))

/-- C6: on every successful run the produced record's `Note` equals the
caller-supplied note; the normalizer overwrites any model-emitted `Note`
key unconditionally, and never leaves the note absent (also for the empty
note). -/
theorem claim6_note_overwrite :
    (∀ (d : Deps) (n : Str) (r : Obj),
       (process_and_log_transaction d n).1 = .ok r →
       dictGet? r noteKey = some (JVal.jstr n)) ∧
    (∀ (obj : Obj) (n : Str),
       dictGet? (normalizeRecord obj n) noteKey = some (JVal.jstr n)) := by
  have hnorm : ∀ (obj : Obj) (n : Str),
      dictGet? (normalizeRecord obj n) noteKey = some (JVal.jstr n) :=
    fun obj n => dictGet?_dictSet_self obj noteKey (JVal.jstr n)
  refine ⟨?_, hnorm⟩
  intro d n r hr
  rcases process_inv d n with ⟨p, hp, _⟩ | ⟨t, c, obj, ht, hc, hl, ha, heq⟩
  · rw [hp] at hr
    cases hr
  · rw [heq] at hr
    have hrr : normalizeRecord obj n = r := by
      simpa using hr
    rw [← hrr]
    exact hnorm obj n

/-- Witness for C6: on `noteText` (whose object carries `"Note": "other"`)
the produced record's `Note` is the caller's `n`, not `other`. -/
theorem claim6_note_overwrite_witness :
    dictGet?
        [(amountKey, JVal.jstr ("10").data),
         (noteKey, JVal.jstr ("n").data)] noteKey =
      some (JVal.jstr ("n").data) :=
  claim6_note_overwrite.1 noteDeps ("n").data
    [(amountKey, JVal.jstr ("10").data), (noteKey, JVal.jstr ("n").data)]
    (by decide)

/-- C7: with the Gemini client or the Sheets handle uninitialized, the
pipeline fails fast with the corresponding configuration-error payload,
making no Gemini call and attempting no append. -/
theorem claim7_config_fail_fast :
    ∀ (d : Deps) (n : Str),
      (d.geminiInit = false →
        process_and_log_transaction d n =
          (.err ⟨("Gemini client not initialized").data, none, none⟩,
           ⟨false, [], []⟩)) ∧
      (d.geminiInit = true → d.sheetInit = false →
        process_and_log_transaction d n =
          (.err ⟨("Google Sheets client not initialized").data, none, none⟩,
           ⟨false, [], []⟩)) := by
  intro d n
  exact ⟨fun h => process_eq_config_gemini d n h,
    fun hg h => process_eq_config_sheet d n hg h⟩

/-- Witness for C7: the run with an uninitialized Gemini client. -/
theorem claim7_config_fail_fast_witness :
    process_and_log_transaction unconfDeps ("n").data =
      (.err ⟨("Gemini client not initialized").data, none, none⟩,
       ⟨false, [], []⟩) :=
  (claim7_config_fail_fast unconfDeps ("n").data).1 rfl

/-- C8: every row appended to the ledger is exactly seven values in the
fixed order Amount, Date, Platform, Items, Vendor, Note, RawModelOutput,
the seventh being the raw model text verbatim; and scenario 1 appends
exactly `["250", "2024-01-05", "UPI", "", "", "lunch", <raw text>]`. -/
theorem claim8_row_layout :
    (∀ (d : Deps) (n : Str) (row : List JVal),
       row ∈ (process_and_log_transaction d n).2.appendedRows →
       ∃ (t : Str) (s : Obj), d.geminiResult = .ok t ∧
         row = [dictGetD s amountKey (JVal.jstr []),
                dictGetD s dateKey (JVal.jstr []),
                dictGetD s platformKey (JVal.jstr []),
                dictGetD s itemsKey (JVal.jstr []),
                dictGetD s vendorKey (JVal.jstr []),
                JVal.jstr n, JVal.jstr t]) ∧
    (process_and_log_transaction scenarioDeps ("lunch").data).2.appendedRows
      = [[JVal.jstr ("250").data, JVal.jstr ("2024-01-05").data,
          JVal.jstr ("UPI").data, JVal.jstr [], JVal.jstr [],
          JVal.jstr ("lunch").data, JVal.jstr scenarioText]] := by
  constructor
  · intro d n row hrow
    rcases process_inv d n with ⟨p, _, he⟩ | ⟨t, c, obj, ht, hc, hl, ha, heq⟩
    · rw [he] at hrow
      cases hrow
    · rw [heq] at hrow
      have hr : row = ledgerRow (normalizeRecord obj n) n t := by
        simpa using hrow
      exact ⟨t, normalizeRecord obj n, ht, by rw [hr]; rfl⟩
  · decide

/-- Witness for C8: the scenario-1 row has the seven-column layout. -/
theorem claim8_row_layout_witness :
    ∃ (t : Str) (s : Obj), scenarioDeps.geminiResult = Except.ok t ∧
      [JVal.jstr ("250").data, JVal.jstr ("2024-01-05").data,
       JVal.jstr ("UPI").data, JVal.jstr [], JVal.jstr [],
       JVal.jstr ("lunch").data, JVal.jstr scenarioText] =
      [dictGetD s amountKey (JVal.jstr []),
       dictGetD s dateKey (JVal.jstr []),
       dictGetD s platformKey (JVal.jstr []),
       dictGetD s itemsKey (JVal.jstr []),
       dictGetD s vendorKey (JVal.jstr []),
       JVal.jstr ("lunch").data, JVal.jstr t] :=
  claim8_row_layout.1 scenarioDeps ("lunch").data
    [JVal.jstr ("250").data, JVal.jstr ("2024-01-05").data,
     JVal.jstr ("UPI").data, JVal.jstr [], JVal.jstr [],
     JVal.jstr ("lunch").data, JVal.jstr scenarioText]
    (by decide)

/-- C9: the upload endpoint returns 400 with an error body when the image
file field is missing, the note field is missing, or the filename is empty;
200 with a message/data body when the pipeline succeeds; and 500 with an
error body carrying the pipeline's payload when the pipeline fails. -/
theorem claim9_http_statuses :
    ∀ (req : ApiRequest) (d : Deps),
      (req.imageProvided = false →
        api_process_transaction req d =
          (.errorOnly ("No image file provided").data, 400)) ∧
      (req.imageProvided = true → req.noteProvided = false →
        api_process_transaction req d =
          (.errorOnly ("No note provided").data, 400)) ∧
      (req.imageProvided = true → req.noteProvided = true →
        req.filename = [] →
        api_process_transaction req d =
          (.errorOnly ("No selected file").data, 400)) ∧
      (∀ (bytes : List Nat) (r : Obj),
        req.imageProvided = true → req.noteProvided = true →
        req.filename ≠ [] → req.readResult = .ok bytes →
        (process_and_log_transaction d req.note).1 = .ok r →
        api_process_transaction req d =
          (.success ("Transaction processed successfully").data r, 200)) ∧
      (∀ (bytes : List Nat) (p : ErrDict),
        req.imageProvided = true → req.noteProvided = true →
        req.filename ≠ [] → req.readResult = .ok bytes →
        (process_and_log_transaction d req.note).1 = .err p →
        api_process_transaction req d =
          (.errorDetailsPayload ("Failed to process transaction").data p,
           500)) := by
  intro req d
  refine ⟨?_, ?_, ?_, ?_, ?_⟩
  · intro h
    simp only [api_process_transaction, h]
    simp
  · intro hi h
    simp only [api_process_transaction, hi, h]
    simp
  · intro hi hn h
    simp only [api_process_transaction, hi, hn, h]
    simp
  · intro bytes r hi hn hf hread hok
    simp only [api_process_transaction, hi, hn, if_neg hf, hread, hok]
    simp
  · intro bytes p hi hn hf hread herr
    simp only [api_process_transaction, hi, hn, if_neg hf, hread, herr]
    simp

/-- Witness for C9: a request missing the image field gets 400. -/
theorem claim9_http_statuses_witness :
    api_process_transaction
        ⟨false, true, ("f.jpg").data, ("n").data, .ok []⟩ scenarioDeps =
      (.errorOnly ("No image file provided").data, 400) :=
  (claim9_http_statuses
    ⟨false, true, ("f.jpg").data, ("n").data, .ok []⟩ scenarioDeps).1 rfl

/-- C10: the record returned on success is exactly the decoded candidate
object with only the `Note` key set to the caller's note: every other key
looks up in the returned record exactly as in the decoded object, so extra
keys pass through and absent canonical keys stay absent (the empty-string
defaults exist only in the appended row). -/
theorem claim10_record_passthrough :
    ∀ (d : Deps) (n : Str) (r : Obj),
      (process_and_log_transaction d n).1 = .ok r →
      ∃ (t c : Str) (obj : Obj),
        d.geminiResult = .ok t ∧ jsonCandidate t = some c ∧
        d.loads c = .ok obj ∧ r = normalizeRecord obj n ∧
        (∀ k : Str, k ≠ noteKey → dictGet? r k = dictGet? obj k) := by
  intro d n r hr
  rcases process_inv d n with ⟨p, hp, _⟩ | ⟨t, c, obj, ht, hc, hl, ha, heq⟩
  · rw [hp] at hr
    cases hr
  · rw [heq] at hr
    have hrr : normalizeRecord obj n = r := by
      simpa using hr
    refine ⟨t, c, obj, ht, hc, hl, hrr.symm, ?_⟩
    intro k hk
    rw [← hrr]
    exact dictGet?_dictSet_ne obj (JVal.jstr n) hk

/-- Witness for C10, on `extraText`: the extra key passes through and the
absent `Date` key stays absent in the returned record. -/
theorem claim10_record_passthrough_witness :
    ∃ (t c : Str) (obj : Obj),
      extraDeps.geminiResult = Except.ok t ∧ jsonCandidate t = some c ∧
      extraDeps.loads c = Except.ok obj ∧
      [(amountKey, JVal.jstr ("10").data),
       (("Extra").data, JVal.jstr ("z").data),
       (noteKey, JVal.jstr ("n").data)] = normalizeRecord obj ("n").data ∧
      (∀ k : Str, k ≠ noteKey →
        dictGet?
          [(amountKey, JVal.jstr ("10").data),
           (("Extra").data, JVal.jstr ("z").data),
           (noteKey, JVal.jstr ("n").data)] k = dictGet? obj k) :=
  claim10_record_passthrough extraDeps ("n").data
    [(amountKey, JVal.jstr ("10").data),
     (("Extra").data, JVal.jstr ("z").data),
     (noteKey, JVal.jstr ("n").data)] (by decide)
